import Mathlib

/-!
Shallow embedding of the A2A protocol runtime of `mapfre_agentkit`:
the JWT auth gateway (`a2a/auth/middleware.py`), the Cognito M2M
credential service (`a2a/auth/credential_services/cognito.py`), the
outbound header-propagation interceptor
(`a2a/interceptors/headers_propagation_interceptor.py`), the task
executors (`a2a/executors/{adk,langchain}/agent_a2a_executor.py`), the
remote-agent registry (`agents/frameworks/a2a_agent_communication.py`),
the streaming event normalizer (`a2a/client/app_client.py`) and the
executor payload utilities (`a2a/executors/utils/utils.py`).

Python dictionaries are modelled as association lists in insertion
order, Python sets as duplicate-free lists, time as `Int`, and Python
truthiness explicitly where the source relies on it.
-/

namespace AgentKit

/-! ### Python-semantics helpers -/

/-- Python `str.lower()` (character-wise, as for ASCII header names). -/
def strToLower (s : String) : String := String.mk (s.toList.map Char.toLower)

/-- Python `str.startswith(p)`. -/
def strStartsWith (s p : String) : Bool := p.toList.isPrefixOf s.toList

/-- Strip leading and trailing whitespace from a character list. -/
def charsTrim (l : List Char) : List Char :=
  ((l.dropWhile Char.isWhitespace).reverse.dropWhile Char.isWhitespace).reverse

/-- Python `str.strip()`. -/
def strTrim (s : String) : String := String.mk (charsTrim s.toList)

/-- Accumulator pass of `str.split()`: `acc` holds the current word
reversed. -/
def wordsAux : List Char → List Char → List String
  | [], acc => if acc.isEmpty then [] else [String.mk acc.reverse]
  | c :: rest, acc =>
      if c.isWhitespace then
        if acc.isEmpty then wordsAux rest []
        else String.mk acc.reverse :: wordsAux rest []
      else wordsAux rest (c :: acc)

/-- Python `str.split()` with no argument: split on runs of whitespace,
dropping empty pieces. -/
def pyWords (s : String) : List String := wordsAux s.toList []

/-- Python `repr` of a string, as it appears inside an f-string
interpolation of a list (quoting with U+0027; escaping inside the
string is not modelled). -/
def pyStrRepr (s : String) : String := "\x27" ++ s ++ "\x27"

/-- Python `repr` of a list of strings, as interpolated by an f-string. -/
def pyListRepr (xs : List String) : String :=
  "[" ++ String.intercalate ", " (xs.map pyStrRepr) ++ "]"

/-- Python truthiness of an optional string (`None` and `""` are falsy). -/
def pyTruthyStr : Option String → Bool
  | none => false
  | some s => s ≠ ""

/-- Python truthiness of an optional list (`None` and `[]` are falsy). -/
def pyTruthyList {α : Type} : Option (List α) → Bool
  | none => false
  | some l => !l.isEmpty

/-- Python `d[k] = v` on a dict kept as an association list in insertion
order: replace in place if the key exists, else append. -/
def dictInsert {α : Type} (d : List (String × α)) (k : String) (v : α) :
    List (String × α) :=
  if d.any (fun kv => kv.1 == k) then
    d.map (fun kv => if kv.1 == k then (k, v) else kv)
  else d ++ [(k, v)]

/-! ### Auth middleware (`a2a/auth/middleware.py`) -/

/-- The auth strategy selected by `AuthConfig.type`
(`config/auth_config.py`, `AuthType`). -/
inductive AuthType where
  | noauth
  | cognito
deriving DecidableEq, BEq, Repr

/-- The exceptions caught by `Middleware.dispatch`, one constructor per
`except` arm (`middleware.py` lines 109-132). -/
inductive AuthException where
  | jwksFetch          -- JWKSFetchError
  | jwksParse          -- JWKSParseError
  | jwksConfig         -- JWKSConfigError
  | expiredSignature   -- jwt.ExpiredSignatureError
  | invalidToken       -- jwt.InvalidTokenError
  | pyjwtError         -- jwt.PyJWTError
  | invalidAuthHeader  -- InvalidAuthHeader
  | unexpected         -- any other Exception
deriving DecidableEq, Repr

/-- A validated token payload; only the `scope` field is read by the
gateway (`payload.get("scope", "")`). `none` models an absent key. -/
structure TokenPayload where
  scope : Option String
deriving DecidableEq, Repr

/-- The middleware state that `dispatch` reads: the public paths, whether
the credential service is the NoAuth one, and
`a2a_auth["required_claims"]`. -/
structure MState where
  public_paths : List String
  isNoAuth : Bool
  required_claims : List String
deriving DecidableEq, Repr

/-- The outcome of `dispatch`: either the request is forwarded to
`call_next`, or an error response is returned (status code, error
category of the JSON body, reason). -/
inductive DispatchResult where
  | passed
  | response (status : Nat) (category : String) (reason : String)
deriving DecidableEq, Repr

/-- Status code of a dispatch outcome (`none` when forwarded). -/
def DispatchResult.statusOf : DispatchResult → Option Nat
  | .passed => none
  | .response s _ _ => some s

/-- `Middleware.dispatch` (`middleware.py` lines 86-146).  The combined
`get_keys → get_token → validate_token` pipeline performs network and
cryptographic work outside the embedding, so its outcome — a payload or
one of the classified exceptions — is passed in as `outcome`; everything
the gateway does with that outcome is modelled faithfully. -/
def dispatch (m : MState) (path : String)
    (outcome : Except AuthException TokenPayload) : DispatchResult :=
  if path ∈ m.public_paths ∨ m.isNoAuth then .passed
  else
    match outcome with
    | .error .jwksFetch =>
        .response 503 "service_unavailable" "Unable to fetch JWKS"
    | .error .jwksParse => .response 401 "unauthorized" "Invalid JWKS format"
    | .error .jwksConfig =>
        .response 401 "unauthorized" "Invalid JWKS configuration"
    | .error .expiredSignature => .response 401 "unauthorized" "Expired JWT"
    | .error .invalidToken => .response 401 "unauthorized" "Invalid JWT"
    | .error .pyjwtError => .response 401 "unauthorized" "Invalid JWT"
    | .error .invalidAuthHeader =>
        .response 401 "unauthorized" "Invalid auth header"
    | .error .unexpected => .response 401 "unauthorized" "Unexpected error"
    | .ok payload =>
        let scopes := pyWords (payload.scope.getD "")
        let missing :=
          m.required_claims.filter (fun claim => !scopes.contains claim)
        if missing = [] then .passed
        else
          .response 403 "forbidden"
            ("Missing required claims: " ++ pyListRepr missing)

/-! ### Middleware construction (`Middleware.__init__`, lines 58-84) -/

/-- The first element of `agent_card.security` as Python sees it: a plain
scheme name, a name-to-claims mapping (kept in insertion order), or a
value of any other type. -/
inductive SecurityRequirement where
  | schemeName (s : String)
  | schemeMap (entries : List (String × List String))
  | badShape
deriving DecidableEq, Repr

/-- The slice of an `AgentCard` that `Middleware.__init__` reads:
`security` (`none` models Python `None`) and the declared scheme names of
`security_schemes` (`none` models a `None` mapping). -/
structure AgentCardM where
  security : Option (List SecurityRequirement)
  security_schemes : Option (List String)
deriving DecidableEq, Repr

/-- The `ConfigurationError`s raised by `Middleware.__init__`, one per
raise site. -/
inductive ConfigError where
  | noSecurityRequirements           -- via except IndexError
  | invalidAgentCardStructure        -- via except KeyError
  | malformedAgentCard               -- via except TypeError
  | invalidSecurityRequirementFormat -- raised directly
deriving DecidableEq, Repr

/-- What `__init__` establishes for `dispatch`: whether the credential
service is NoAuth, and `a2a_auth["required_claims"]` (`none` when
`a2a_auth` stays the empty dict). -/
structure MiddlewareInitState where
  isNoAuth : Bool
  a2a_auth : Option (List String)
deriving DecidableEq, Repr

/-- `self.security_scheme = agent_card.security_schemes[scheme_name]`
followed by credential-service construction: a `None` mapping raises
`TypeError` (→ "Malformed agent card"), a missing key raises `KeyError`
(→ "Invalid agent card structure"). -/
def lookupScheme (card : AgentCardM) (authType : AuthType)
    (scheme_name : String) (required_claims : List String) :
    Except ConfigError MiddlewareInitState :=
  match card.security_schemes with
  | none => .error .malformedAgentCard
  | some names =>
      if scheme_name ∈ names then
        .ok ⟨authType == AuthType.noauth, some required_claims⟩
      else .error .invalidAgentCardStructure

/-- `Middleware.__init__` (`middleware.py` lines 58-84).  `if
agent_card.security:` is Python truthiness, so an empty or `None`
security list takes the `else` branch and installs the NoAuth credential
service.  An empty first mapping raises `IndexError` at
`list(sec_req.keys())[0]`, converted to
`ConfigurationError("No security requirements specified")`. -/
def middlewareInit (card : AgentCardM) (authType : AuthType) :
    Except ConfigError MiddlewareInitState :=
  if pyTruthyList card.security then
    match card.security with
    | some (sec_req :: _) =>
        match sec_req with
        | .schemeName s => lookupScheme card authType s []
        | .schemeMap [] => .error .noSecurityRequirements
        | .schemeMap ((name, claims) :: _) =>
            lookupScheme card authType name claims
        | .badShape => .error .invalidSecurityRequirementFormat
    | _ => .ok ⟨true, none⟩
  else .ok ⟨true, none⟩

/-! ### Cognito M2M credential service
(`a2a/auth/credential_services/cognito.py`) -/

/-- The mutable cache of `CognitoM2MCredentialService`:
`self._access_token` and `self._expires_at`. -/
structure CognitoState where
  access_token : Option String
  expires_at : Int
deriving DecidableEq, Repr

/-- The body the token endpoint would return: `access_token` and
`expires_in` (the source defaults a missing `expires_in` to 3600; the
value after defaulting is modelled). -/
structure FetchResult where
  access_token : String
  expires_in : Int
deriving DecidableEq, Repr

/-- `CognitoM2MCredentialService._fetch_token` (lines 78-99): cache the
fetched token and record `_expires_at = time.time() + expires_in - 60`. -/
def fetch_token (now : Int) (r : FetchResult) : CognitoState :=
  ⟨some r.access_token, now + r.expires_in - 60⟩

/-- `CognitoM2MCredentialService.get_credentials` (lines 63-76):
`if not self._access_token or time.time() > self._expires_at:` refetch,
then return `self._access_token`.  The network fetch outcome is the
parameter `r`; the third component records whether a fetch happened. -/
def get_credentials (s : CognitoState) (now : Int) (r : FetchResult) :
    CognitoState × Option String × Bool :=
  if !pyTruthyStr s.access_token || now > s.expires_at then
    let s2 := fetch_token now r
    (s2, s2.access_token, true)
  else (s, s.access_token, false)

/-! ### Headers propagation interceptor
(`a2a/interceptors/headers_propagation_interceptor.py`) -/

/-- A Python value as far as the interceptors and payload utilities
inspect one: `isinstance(v, (str, bytes))` or anything else. -/
inductive PyVal where
  | str (s : String)
  | bytes (b : List Nat)
  | intV (n : Int)
  | noneV
deriving DecidableEq, Repr

/-- `isinstance(v, (str, bytes))`. -/
def PyVal.isStrOrBytes : PyVal → Bool
  | .str _ => true
  | .bytes _ => true
  | _ => false

/-- The configuration of `HeadersPropagationInterceptor` after
`__init__` lowercased the allowlists (`allowed_prefixes` is
`allowed_starts` here, `allowed_names`, `allow_authorization`). -/
structure HeadersPropagationInterceptor where
  allowed_starts : List String
  allowed_names : List String
  allow_authorization : Bool
deriving DecidableEq, Repr

/-- `HeadersPropagationInterceptor.__init__` with all defaults. -/
def defaultInterceptor : HeadersPropagationInterceptor :=
  ⟨["x-mapfre-"], ["x-request-id", "x-correlation-id", "accept-language"],
   false⟩

/-- The `self._blocked` set built in `__init__` (lines 38-51):
hop-by-hop headers plus `host`/`content-length`, and unless
`allow_authorization`, also `authorization` and `cookie`. -/
def HeadersPropagationInterceptor.blocked
    (i : HeadersPropagationInterceptor) : List String :=
  ["connection", "keep-alive", "transfer-encoding", "te", "trailer",
   "upgrade", "host", "content-length"] ++
    (if i.allow_authorization then [] else ["authorization", "cookie"])

/-- `HeadersPropagationInterceptor._is_allowed` (lines 53-59). -/
def is_allowed (i : HeadersPropagationInterceptor) (name : String) : Bool :=
  let lower := strToLower name
  if i.blocked.contains lower then false
  else if i.allowed_names.contains lower then true
  else i.allowed_starts.any (fun p => strStartsWith lower p)

/-- The `for k, v in candidate_headers.items():` loop of
`HeadersPropagationInterceptor.intercept` (lines 80-85), threading the
`headers` dict of `http_kwargs` and the `added` dict. -/
def interceptLoop (i : HeadersPropagationInterceptor) :
    List (String × PyVal) → List (String × PyVal) → List (String × PyVal) →
    List (String × PyVal) × List (String × PyVal)
  | [], headers, added => (headers, added)
  | kv :: rest, headers, added =>
      if kv.2.isStrOrBytes && is_allowed i kv.1 then
        interceptLoop i rest (dictInsert headers kv.1 kv.2)
          (dictInsert added kv.1 kv.2)
      else interceptLoop i rest headers added

/-- `HeadersPropagationInterceptor.intercept` (lines 61-91) restricted to
the case where the call context carries a dict under
`propagation_headers`; returns the updated `headers` of `http_kwargs`
together with the `added` dict.  An absent or falsy candidate dict is the
`[]` instance here. -/
def intercept (i : HeadersPropagationInterceptor)
    (headers0 : List (String × PyVal))
    (propagation_headers : List (String × PyVal)) :
    List (String × PyVal) × List (String × PyVal) :=
  interceptLoop i propagation_headers headers0 []

/-! ### Executor payload utilities (`a2a/executors/utils/utils.py`) -/

/-- A Python value that may itself be a flat header dict, as needed by the
`setdefault` step of `get_propagated_headers`. -/
inductive PyObj where
  | val (v : PyVal)
  | dict (entries : List (String × PyVal))
deriving DecidableEq, Repr

/-- Python `d.setdefault(k, v)` on an association-list dict: return the
existing value if the key is present, otherwise insert the default and
return it. -/
def dictSetdefault (d : List (String × PyObj)) (k : String) (v : PyObj) :
    List (String × PyObj) × PyObj :=
  match d.lookup k with
  | some w => (d, w)
  | none => (d ++ [(k, v)], v)

/-- `get_propagated_headers` (`utils.py` lines 95-115).
`propagated_headers = propagated_headers.setdefault("propagation_headers", {})`
rebinds the name to the freshly inserted inner empty dict, dropping the
outer wrapper; the loop then fills that inner dict with the inbound
headers that are `str`/`bytes` valued and start with `x-mapfre-`. -/
def get_propagated_headers (headers : List (String × PyVal)) :
    List (String × PyVal) :=
  let outer : List (String × PyObj) := []
  let rebound := (dictSetdefault outer "propagation_headers" (.dict [])).2
  let inner : List (String × PyVal) :=
    match rebound with
    | .dict es => es
    | .val _ => []
  headers.foldl
    (fun acc kv =>
      if kv.2.isStrOrBytes && strStartsWith kv.1 "x-mapfre-" then
        dictInsert acc kv.1 kv.2
      else acc)
    inner

/-- `DEFAULT_USER_ID` (`utils.py` line 15). -/
def DEFAULT_USER_ID : String := "self"

/-- The slice of a `RequestContext` that `generate_payload` reads: the
`headers` map of the call-context state, the protocol `context_id`, and
whether `request.message` is set. -/
structure RequestContextM where
  headers : List (String × PyVal)
  context_id : String
  messagePresent : Bool
deriving DecidableEq, Repr

/-- The payload dict `generate_payload` builds (the message conversion is
out of scope of the claims; identity fields and the propagated headers
are modelled). -/
structure ExecPayload where
  user_id : PyVal
  session_id : PyVal
  propagation_headers : List (String × PyVal)
deriving DecidableEq, Repr

/-- `generate_payload` (`utils.py` lines 62-92): raise `ValueError` when
the message is absent, else read `x-mapfre-user-id` (default
`DEFAULT_USER_ID`) and `x-mapfre-session-id` (default the context id)
from the inbound headers, and attach `get_propagated_headers`. -/
def generate_payload (request : RequestContextM) :
    Except Unit ExecPayload :=
  if !request.messagePresent then .error ()
  else
    .ok
      { user_id :=
          (request.headers.lookup "x-mapfre-user-id").getD
            (.str DEFAULT_USER_ID)
        session_id :=
          (request.headers.lookup "x-mapfre-session-id").getD
            (.str request.context_id)
        propagation_headers := get_propagated_headers request.headers }

/-! ### Task executors
(`a2a/executors/langchain/agent_a2a_executor.py` and
`a2a/executors/adk/agent_a2a_executor.py`) -/

/-- A2A task states used by the executors. -/
inductive TState where
  | submitted
  | working
  | input_required
  | completed
  | failed
deriving DecidableEq, Repr

/-- An event pushed through the `TaskUpdater`: a status update (with its
`final` flag) or an artifact carrying content parts. -/
inductive Emit where
  | status (s : TState) (final : Bool)
  | artifact (parts : List String)
deriving DecidableEq, Repr

/-- How `_process_request` finishes: normally, with
`ServerError(error=InternalError())` (the LangChain wrap), or with an
uncaught framework exception identified by a token. -/
inductive ExecError where
  | serverInternal
  | raw (code : Nat)
deriving DecidableEq, Repr

/-- One item of `agent_executor.stream(...)` in the LangChain executor. -/
structure LCItem where
  is_task_complete : Bool
  require_user_input : Bool
  content : String
deriving DecidableEq, Repr

/-- One step of the LangChain event stream: an item is produced, or the
stream (or the body handling it) raises. -/
inductive LCStep where
  | item (it : LCItem)
  | raiseExc
deriving DecidableEq, Repr

/-- The `async for item in self.agent_executor.stream(...)` loop together
with the surrounding `try/except` of
`LangChainAgentA2AExecutor._process_request` (lines 97-140): a
`require_user_input` item emits a final `input_required` status, an
`is_task_complete` item emits an artifact then `complete()`, anything
else is skipped; on an exception, a final `failed` status is emitted and
`ServerError(error=InternalError())` is raised. -/
def lcConsume : List LCStep → List Emit × Except ExecError Unit
  | [] => ([], .ok ())
  | .raiseExc :: _ =>
      ([.status .failed true], .error .serverInternal)
  | .item it :: rest =>
      let here : List Emit :=
        if it.require_user_input then [.status .input_required true]
        else if it.is_task_complete then
          [.artifact [it.content], .status .completed true]
        else []
      let tail := lcConsume rest
      (here ++ tail.1, tail.2)

/-- The `query` built from the message parts (lines 70-75): concatenate
the non-empty texts with trailing spaces, then `strip()`. -/
def lcQuery (parts : List String) : String :=
  strTrim (parts.foldl (fun q t => if t ≠ "" then q ++ t ++ " " else q) "")

/-- `LangChainAgentA2AExecutor._process_request` (lines 46-140): an empty
query short-circuits with a final `failed` status and a normal return;
otherwise the stream is consumed. -/
def lc_process_request (parts : List String) (stream : List LCStep) :
    List Emit × Except ExecError Unit :=
  if lcQuery parts = "" then ([.status .failed true], .ok ())
  else lcConsume stream

/-- One ADK runner event as the executor inspects it:
`is_final_response()`, the kept text parts of its content, and whether
`get_function_calls()` is non-empty. -/
structure ADKEvent where
  isFinal : Bool
  textParts : List String
  hasFunctionCalls : Bool
deriving DecidableEq, Repr

/-- One step of the ADK event stream: an event, or an exception raised
while consuming it. -/
inductive ADKStep where
  | ev (e : ADKEvent)
  | raiseExc (code : Nat)
deriving DecidableEq, Repr

/-- The `async for event in self.runner.run_async(...)` loop of
`ADKAgentA2AExecutor._process_request` (lines 81-113): a final response
emits an artifact then a final `completed` status and breaks; an event
without function calls emits a `working` status; others are skipped.
There is no `except` arm: an exception propagates unchanged. -/
def adkConsume : List ADKStep → List Emit × Except ExecError Unit
  | [] => ([], .ok ())
  | .raiseExc c :: _ => ([], .error (.raw c))
  | .ev e :: rest =>
      if e.isFinal then
        ([.artifact e.textParts, .status .completed true], .ok ())
      else if !e.hasFunctionCalls then
        let tail := adkConsume rest
        (.status .working false :: tail.1, tail.2)
      else adkConsume rest

/-- Python `set.add` on a duplicate-free list. -/
def setAdd (s : List String) (x : String) : List String :=
  if s.contains x then s else s ++ [x]

/-- Python `set.discard` on a duplicate-free list. -/
def setDiscard (s : List String) (x : String) : List String :=
  s.filter (fun y => y ≠ x)

/-- `ADKAgentA2AExecutor._process_request` (lines 51-116): resolve the
session through `_upsert_session` (the session service is the parameter
`upsert`), add the resolved id to `self._active_sessions`, consume the
event stream, and in the `finally` block discard the id again.  Returns
the final active-session set, the emitted events and the outcome. -/
def adk_process_request (upsert : String → String)
    (active_sessions : List String) (session_id : String)
    (stream : List ADKStep) :
    List String × List Emit × Except ExecError Unit :=
  let sid := upsert session_id
  let s1 := setAdd active_sessions sid
  let out := adkConsume stream
  (setDiscard s1 sid, out.1, out.2)

/-! ### Remote agent registry
(`agents/frameworks/a2a_agent_communication.py`) -/

/-- One entry of `remote_agent_configs` together with the outcome of the
environment interactions it triggers: the Python truthiness of the config
dict (checked for the first entry only), whether
`AuthConfig(**config.get("auth"))` succeeds — that call sits before the
`try` block — and the outcome of resolving the card and building the
connection (the guarded part): `some card.name` on success, `none` when
that part raised. -/
structure RemoteEntry where
  nonEmptyConfig : Bool
  authOk : Bool
  fetch : Option String
deriving DecidableEq, Repr

/-- Failure mode of `initialize`: an exception escaping the loop. -/
inductive InitError where
  | configAbort
deriving DecidableEq, Repr

/-- The connection-registration step
`self.remote_agent_connections[card.name] = remote_connection`: record
the name once (re-assignment keeps the key set unchanged). -/
def registerName (names : List String) (name : String) : List String :=
  if names.contains name then names else names ++ [name]

/-- The `for i, config in enumerate(self.remote_agent_configs):` loop of
`A2AAgentCommunicationBase.initialize` (lines 48-74).  `AuthConfig`
construction happens outside the `try`, so its failure aborts the whole
loop; a failure inside the `try` (card fetch / connection build) is
caught, logged and skipped. -/
def registryInitLoop : List RemoteEntry → List String →
    Except InitError (List String)
  | [], acc => .ok acc
  | e :: rest, acc =>
      if !e.authOk then .error .configAbort
      else
        match e.fetch with
        | some name => registryInitLoop rest (registerName acc name)
        | none => registryInitLoop rest acc

/-- `A2AAgentCommunicationBase.initialize` (lines 29-91; renamed here
because that word is reserved in Lean): an empty config list or a falsy
first config returns early with nothing registered; otherwise the loop
runs.  Returns the registered agent names. -/
def registryInit (entries : List RemoteEntry) :
    Except InitError (List String) :=
  match entries with
  | [] => .ok []
  | e0 :: _ =>
      if !e0.nonEmptyConfig then .ok []
      else registryInitLoop entries []

/-! ### Streaming event normalizer (`a2a/client/app_client.py`) -/

/-- One response object of the low-level client's `send_message` stream,
after the tuple unwrap, as `A2AGatewayClient.send_message` (lines
163-217) inspects it: a `root` holding a JSON-RPC error, a `root`
holding a result, or a plain object with its `artifacts` truthiness
(`[]` models absent or empty), whether it has a `parts` attribute, an
optional own `id` attribute, optional `event`/`type` fields, and its
`model_dump` rendering. -/
inductive NormItem where
  | rootError (err : List (String × String))
  | rootResult (ownId : Option String) (dump : List (String × String))
  | obj (artifacts : List String) (hasParts : Bool) (ownId : Option String)
      (eventField : Option String) (typeField : Option String)
      (dump : List (String × String))
deriving DecidableEq, Repr

/-- One normalized event `{"event": ..., "data": ..., "id": ...}`. -/
structure NormEvent where
  event : String
  data : List (String × String)
  id : String
deriving DecidableEq, Repr

/-- Python `a or b` over an optional string (`None` and `""` are falsy). -/
def pyOrStr (o : Option String) (d : String) : String :=
  match o with
  | some s => if s = "" then d else s
  | none => d

/-- `mid = message_id or uuid4().hex; rid = request_id or mid`
(lines 154-155); `generated` stands for `uuid4().hex`. -/
def resolve_rid (request_id message_id : Option String)
    (generated : String) : String :=
  pyOrStr request_id (pyOrStr message_id generated)

/-- The per-item body of the `async for` loop of
`A2AGatewayClient.send_message` (lines 166-217).  In the artifacts and
parts branches `data["id"] = getattr(item, "id", rid) if
hasattr(item, "id") else rid`; in the fallback branch no id is written
into the data and the event name is `event or type or "update"`. -/
def normalizeItem (rid : String) : NormItem → NormEvent
  | .rootError err => ⟨"error", err, rid⟩
  | .rootResult ownId dump =>
      ⟨"message", dictInsert dump "id" (ownId.getD rid), rid⟩
  | .obj artifacts hasParts ownId eventField typeField dump =>
      if artifacts ≠ [] then
        ⟨"message", dictInsert dump "id" (ownId.getD rid), rid⟩
      else if hasParts then
        ⟨"message", dictInsert dump "id" (ownId.getD rid), rid⟩
      else
        ⟨pyOrStr eventField (pyOrStr typeField "update"), dump, rid⟩

/-- The whole `async for` loop: a JSON-RPC error yields the error event
and `return`s; every other item yields its normalized event. -/
def normalizeAll (rid : String) : List NormItem → List NormEvent
  | [] => []
  | .rootError err :: _ => [⟨"error", err, rid⟩]
  | it :: rest => normalizeItem rid it :: normalizeAll rid rest

/-- `A2AGatewayClient.send_message` (lines 124-217): resolve the
correlation id once, then normalize the response stream with it. -/
def send_message_events (request_id message_id : Option String)
    (generated : String) (items : List NormItem) : List NormEvent :=
  normalizeAll (resolve_rid request_id message_id generated) items

/-! ## Theorems -/

/-- C1: for every request to a non-public path on an agent not configured
for NoAuth, `dispatch` maps each classified auth failure to exactly one
fail-closed response — 503 for a JWKS fetch failure, 401 for JWKS
parse/config failures, expired or invalid tokens, a missing or malformed
Authorization header, and any other unexpected exception — and never
forwards the request nor lets the exception escape (in the embedding
`dispatch` is a total function into responses, and on every error input
its result is a response, never `passed`). -/
theorem dispatch_auth_failures_fail_closed
    (m : MState) (path : String) (e : AuthException)
    (hpub : path ∉ m.public_paths) (hnoauth : m.isNoAuth = false) :
    (dispatch m path (.error e)).statusOf =
      some (if e = AuthException.jwksFetch then 503 else 401) := by
  cases e <;> simp [dispatch, hpub, hnoauth, DispatchResult.statusOf]

/-- Witness for C1 at a concrete input: JWKS fetch failure yields 503. -/
theorem dispatch_auth_failures_fail_closed_witness :
    ("/a2a" ∉ (⟨["/docs"], false, ["admin"]⟩ : MState).public_paths) ∧
    (dispatch ⟨["/docs"], false, ["admin"]⟩ "/a2a"
        (.error .jwksFetch)).statusOf =
      some (if AuthException.jwksFetch = AuthException.jwksFetch
            then 503 else 401) :=
  ⟨by decide,
   dispatch_auth_failures_fail_closed ⟨["/docs"], false, ["admin"]⟩ "/a2a"
     .jwksFetch (by decide) rfl⟩

/-- C2 counterexample: constructing the middleware with an agent card
whose security list is empty does NOT raise `ConfigurationError` — the
`if agent_card.security:` truthiness check routes an empty list to the
NoAuth fallback and construction succeeds. -/
theorem middlewareInit_empty_security_cex :
    middlewareInit ⟨some [], some []⟩ AuthType.cognito =
      .ok ⟨true, none⟩ := by
  rfl

/-- C2 (amended): an empty or absent security list does not raise — it
installs the NoAuth credential service; `ConfigurationError` is raised at
construction time when the first security requirement references an
undeclared scheme, has the wrong shape, or is an empty mapping; and a
declared first requirement succeeds, recording its claims. -/
theorem middlewareInit_construction_errors
    (ss : Option (List String)) (a : AuthType)
    (names names5 : List String) (n n5 : String) (cs cs5 : List String)
    (t : List (String × List String)) (rest : List SecurityRequirement)
    (hn : n ∉ names) (hn5 : n5 ∈ names5) :
    middlewareInit ⟨some [], ss⟩ a = .ok ⟨true, none⟩ ∧
    middlewareInit ⟨none, ss⟩ a = .ok ⟨true, none⟩ ∧
    middlewareInit ⟨some (.schemeMap ((n, cs) :: t) :: rest), some names⟩ a
      = .error .invalidAgentCardStructure ∧
    middlewareInit ⟨some (.badShape :: rest), ss⟩ a
      = .error .invalidSecurityRequirementFormat ∧
    middlewareInit ⟨some (.schemeMap [] :: rest), ss⟩ a
      = .error .noSecurityRequirements ∧
    middlewareInit ⟨some (.schemeMap ((n5, cs5) :: t) :: rest), some names5⟩ a
      = .ok ⟨a == AuthType.noauth, some cs5⟩ := by
  refine ⟨rfl, rfl, ?_, rfl, rfl, ?_⟩
  · simp [middlewareInit, lookupScheme, pyTruthyList, hn]
  · simp [middlewareInit, lookupScheme, pyTruthyList, hn5]

/-- Witness for C2's amended theorem at a concrete input: a first
requirement naming an undeclared scheme fails construction. -/
theorem middlewareInit_construction_errors_witness :
    ("t" ∉ ["s"]) ∧
    middlewareInit
        ⟨some [SecurityRequirement.schemeMap [("t", ["read"])]], some ["s"]⟩
        AuthType.cognito
      = .error .invalidAgentCardStructure :=
  ⟨by decide,
   (middlewareInit_construction_errors (some []) .cognito ["s"] ["s"]
     "t" "s" ["read"] ["read"] [] [] (by decide) (by decide)).2.2.1⟩

/-- C3: on a validated payload, `dispatch` forwards the request iff every
required claim occurs among the whitespace-separated words of the
payload's `scope` field (so supersets are always accepted); otherwise it
returns a 403 response whose reason names exactly the missing claims. -/
theorem dispatch_scope_enforcement
    (m : MState) (path : String) (p : TokenPayload)
    (hpub : path ∉ m.public_paths) (hnoauth : m.isNoAuth = false) :
    (dispatch m path (.ok p) = .passed ↔
      ∀ c ∈ m.required_claims, c ∈ pyWords (p.scope.getD "")) ∧
    (m.required_claims.filter
        (fun c => !(pyWords (p.scope.getD "")).contains c) ≠ [] →
      dispatch m path (.ok p) =
        .response 403 "forbidden"
          ("Missing required claims: " ++
            pyListRepr (m.required_claims.filter
              (fun c => !(pyWords (p.scope.getD "")).contains c)))) := by
  have hmiss : m.required_claims.filter
      (fun c => !(pyWords (p.scope.getD "")).contains c) = [] ↔
      ∀ c ∈ m.required_claims, c ∈ pyWords (p.scope.getD "") := by
    rw [List.filter_eq_nil_iff]
    constructor
    · intro h c hc
      have := h c hc
      simpa [List.elem_iff] using this
    · intro h c hc
      simpa [List.elem_iff] using h c hc
  have hcond : ¬ (path ∈ m.public_paths ∨ m.isNoAuth = true) := by
    rintro (h | h)
    · exact hpub h
    · rw [hnoauth] at h
      exact Bool.false_ne_true h
  have hdisp : dispatch m path (.ok p) =
      (if m.required_claims.filter
          (fun c => !(pyWords (p.scope.getD "")).contains c) = [] then
        DispatchResult.passed
      else
        .response 403 "forbidden"
          ("Missing required claims: " ++
            pyListRepr (m.required_claims.filter
              (fun c => !(pyWords (p.scope.getD "")).contains c)))) := by
    unfold dispatch
    rw [if_neg hcond]
  refine ⟨⟨fun h => ?_, fun h => ?_⟩, fun hne => ?_⟩
  · rw [hdisp] at h
    by_cases hm2 : m.required_claims.filter
        (fun c => !(pyWords (p.scope.getD "")).contains c) = []
    · exact hmiss.mp hm2
    · rw [if_neg hm2] at h
      exact absurd h (by simp)
  · rw [hdisp, if_pos (hmiss.mpr h)]
  · rw [hdisp, if_neg hne]

/-- Witness for C3 at a concrete input: required claims `["admin"]` and a
scope of `"read write"` yield 403 naming `admin`. -/
theorem dispatch_scope_enforcement_witness :
    ("/a2a" ∉ (⟨[], false, ["admin"]⟩ : MState).public_paths) ∧
    (["admin"].filter
        (fun c => !(pyWords "read write").contains c) ≠ []) ∧
    dispatch ⟨[], false, ["admin"]⟩ "/a2a" (.ok ⟨some "read write"⟩) =
      .response 403 "forbidden"
        ("Missing required claims: " ++
          pyListRepr (["admin"].filter
            (fun c => !(pyWords "read write").contains c))) :=
  ⟨by decide, by decide,
   (dispatch_scope_enforcement ⟨[], false, ["admin"]⟩ "/a2a"
     ⟨some "read write"⟩ (by decide) rfl).2 (by decide)⟩

/-- C4 counterexample: a token fetched at time 0 with `expires_in = 3600`
has recorded expiry `e = 3540`; the claim requires a refetch at every
`now ≥ e − 60`, in particular at `now = 3480`, but `get_credentials`
(whose refetch condition is `now > e`) reuses the cached token there. -/
theorem get_credentials_boundary_cex :
    fetch_token 0 ⟨"tok", 3600⟩ = ⟨some "tok", 3540⟩ ∧
    (3480 : Int) = 3540 - 60 ∧
    get_credentials ⟨some "tok", 3540⟩ 3480 ⟨"fresh", 3600⟩ =
      (⟨some "tok", 3540⟩, some "tok", false) := by
  refine ⟨rfl, by decide, by rfl⟩

/-- C4 (amended): for a cached non-empty token with recorded expiry `e`
(set on fetch to `now + expires_in − 60`), `get_credentials` reuses the
cached token without refetching iff `now ≤ e` — including the boundary
`now = e` — and performs a new client-credentials fetch iff `now > e`;
with no (or an empty) cached token it always fetches. -/
theorem get_credentials_cache_boundary
    (tok : String) (e now : Int) (r : FetchResult) (htok : tok ≠ "") :
    (now ≤ e →
      get_credentials ⟨some tok, e⟩ now r =
        (⟨some tok, e⟩, some tok, false)) ∧
    (now > e →
      get_credentials ⟨some tok, e⟩ now r =
        (fetch_token now r, some r.access_token, true)) ∧
    get_credentials ⟨none, e⟩ now r =
      (fetch_token now r, some r.access_token, true) := by
  refine ⟨fun h => ?_, fun h => ?_, ?_⟩
  · unfold get_credentials
    rw [if_neg]
    simp [pyTruthyStr, htok]
    omega
  · unfold get_credentials
    rw [if_pos]
    · simp [fetch_token]
    · simp [pyTruthyStr, h]
  · unfold get_credentials
    rw [if_pos]
    · simp [fetch_token]
    · simp [pyTruthyStr]

/-- Witness for C4's amended theorem at a concrete input: at the exact
recorded expiry `now = e = 3540` the cached token is still reused. -/
theorem get_credentials_cache_boundary_witness :
    ("tok" ≠ "") ∧ ((3540 : Int) ≤ 3540) ∧
    get_credentials ⟨some "tok", 3540⟩ 3540 ⟨"fresh", 3600⟩ =
      (⟨some "tok", 3540⟩, some "tok", false) :=
  ⟨by decide, by decide,
   (get_credentials_cache_boundary "tok" 3540 3540 ⟨"fresh", 3600⟩
     (by decide)).1 (by decide)⟩

/-- The forwarding rule of C5 as the claim states it: the lowercased name
is not in the blocked set (hop-by-hop headers, `host`, `content-length`,
`authorization`, `cookie`) and either is one of the three exact allowed
names or starts with `x-mapfre-`. -/
def c5Allows (name : String) : Bool :=
  let lower := strToLower name
  !(["connection", "keep-alive", "transfer-encoding", "te", "trailer",
     "upgrade", "host", "content-length", "authorization",
     "cookie"].contains lower) &&
    (["x-request-id", "x-correlation-id", "accept-language"].contains lower
      || strStartsWith lower "x-mapfre-")

/-- `_is_allowed` under the default configuration coincides with the
claim's allowlist rule. -/
theorem is_allowed_default_eq (name : String) :
    is_allowed defaultInterceptor name = c5Allows name := by
  have hblocked : defaultInterceptor.blocked =
      ["connection", "keep-alive", "transfer-encoding", "te", "trailer",
       "upgrade", "host", "content-length", "authorization", "cookie"] := rfl
  have hnames : defaultInterceptor.allowed_names =
      ["x-request-id", "x-correlation-id", "accept-language"] := rfl
  have hstarts : defaultInterceptor.allowed_starts = ["x-mapfre-"] := rfl
  unfold is_allowed c5Allows
  rw [hblocked, hnames, hstarts]
  cases hb :
      (["connection", "keep-alive", "transfer-encoding", "te", "trailer",
        "upgrade", "host", "content-length", "authorization",
        "cookie"].contains (strToLower name)) with
  | true => simp only [hb]; simp
  | false =>
      cases hn :
          (["x-request-id", "x-correlation-id",
            "accept-language"].contains (strToLower name)) with
      | true => simp only [hb, hn]; simp
      | false => simp only [hb, hn]; simp

/-- `dictInsert` on a fresh key appends. -/
theorem dictInsert_append {α : Type} (d : List (String × α)) (k : String)
    (v : α) (hk : k ∉ d.map Prod.fst) : dictInsert d k v = d ++ [(k, v)] := by
  unfold dictInsert
  rw [if_neg]
  intro hc
  rw [List.any_eq_true] at hc
  obtain ⟨x, hx, he⟩ := hc
  rw [beq_iff_eq] at he
  exact hk (he ▸ List.mem_map_of_mem Prod.fst hx)

/-- The interceptor loop appends to `added` exactly the entries passing
the type and allowlist checks, provided the candidate keys are distinct
(as they are in a Python dict). -/
theorem interceptLoop_added (i : HeadersPropagationInterceptor)
    (hs : List (String × PyVal)) :
    ∀ (headers added : List (String × PyVal)),
      (hs.map Prod.fst).Nodup →
      (∀ k ∈ added.map Prod.fst, k ∉ hs.map Prod.fst) →
      (interceptLoop i hs headers added).2 =
        added ++ hs.filter (fun kv => kv.2.isStrOrBytes && is_allowed i kv.1)
    := by
  induction hs with
  | nil => intro headers added _ _; simp [interceptLoop]
  | cons kv rest ih =>
      intro headers added hnd hdisj
      rw [List.map_cons, List.nodup_cons] at hnd
      by_cases hp : (kv.2.isStrOrBytes && is_allowed i kv.1) = true
      · have hkv : kv.1 ∉ added.map Prod.fst := by
          intro hmem
          exact hdisj kv.1 hmem (by simp)
        have hstep : ∀ k ∈ (dictInsert added kv.1 kv.2).map Prod.fst,
            k ∉ rest.map Prod.fst := by
          intro k hkmem
          rw [dictInsert_append added kv.1 kv.2 hkv] at hkmem
          rw [List.map_append] at hkmem
          rcases List.mem_append.mp hkmem with h1 | h1
          · intro hr
            exact hdisj k h1 (List.mem_cons_of_mem _ hr)
          · simp at h1
            subst h1
            exact hnd.1
        simp only [interceptLoop]
        rw [if_pos hp]
        rw [ih (dictInsert headers kv.1 kv.2) (dictInsert added kv.1 kv.2)
            hnd.2 hstep]
        rw [dictInsert_append added kv.1 kv.2 hkv]
        simp only [List.filter_cons]
        rw [if_pos hp, List.append_assoc, List.singleton_append]
      · simp only [interceptLoop]
        rw [if_neg hp]
        rw [ih headers added hnd.2 (fun k hk =>
          fun hr => hdisj k hk (List.mem_cons_of_mem _ hr))]
        simp only [List.filter_cons]
        rw [if_neg hp]

/-- C5: under the default configuration, the headers added by
`HeadersPropagationInterceptor.intercept` are exactly the candidate
entries with string/bytes values whose lowercased name is not in the
blocked set (hop-by-hop headers, `host`, `content-length`,
`authorization`, `cookie`) and either is one of `x-request-id`,
`x-correlation-id`, `accept-language` or starts with `x-mapfre-`. -/
theorem intercept_default_allowlist
    (headers0 hs : List (String × PyVal))
    (hnd : (hs.map Prod.fst).Nodup) :
    (intercept defaultInterceptor headers0 hs).2 =
      hs.filter (fun kv => kv.2.isStrOrBytes && c5Allows kv.1) := by
  unfold intercept
  rw [interceptLoop_added defaultInterceptor hs headers0 [] hnd (by simp)]
  rw [List.nil_append]
  apply List.filter_congr
  intro kv _
  rw [is_allowed_default_eq]

/-- Witness for C5 at the claim's concrete input:
`{"x-mapfre-trace-id": "abc", "authorization": "secret"}` forwards only
`x-mapfre-trace-id`. -/
theorem intercept_default_allowlist_witness :
    (([("x-mapfre-trace-id", PyVal.str "abc"),
       ("authorization", PyVal.str "secret")].map Prod.fst).Nodup) ∧
    (intercept defaultInterceptor []
        [("x-mapfre-trace-id", PyVal.str "abc"),
         ("authorization", PyVal.str "secret")]).2 =
      [("x-mapfre-trace-id", PyVal.str "abc")] :=
  ⟨by decide,
   (intercept_default_allowlist []
       [("x-mapfre-trace-id", PyVal.str "abc"),
        ("authorization", PyVal.str "secret")] (by decide)).trans
     (by decide)⟩

/-- Consuming a LangChain stream that raises after an exception-free
item sequence: the emitted events end with a final `failed` status and
the result is `ServerError(InternalError)`. -/
theorem lcConsume_raise (pre rest : List LCStep)
    (hpre : ∀ s ∈ pre, s ≠ LCStep.raiseExc) :
    ∃ es, lcConsume (pre ++ LCStep.raiseExc :: rest) =
      (es ++ [Emit.status TState.failed true],
        .error ExecError.serverInternal) := by
  induction pre with
  | nil => exact ⟨[], rfl⟩
  | cons s pre ih =>
      match s with
      | .raiseExc => exact absurd rfl (hpre _ (by simp))
      | .item it =>
          obtain ⟨es, hes⟩ :=
            ih (fun x hx => hpre x (List.mem_cons_of_mem _ hx))
          refine ⟨(if it.require_user_input then
              [Emit.status .input_required true]
            else if it.is_task_complete then
              [Emit.artifact [it.content], Emit.status .completed true]
            else []) ++ es, ?_⟩
          rw [List.cons_append]
          simp only [lcConsume]
          rw [hes, List.append_assoc]

/-- The ADK event loop never emits a `failed` status, and its outcome is
either normal or the raw (unwrapped) exception. -/
theorem adkConsume_no_failed (stream : List ADKStep) :
    (∀ f, Emit.status TState.failed f ∉ (adkConsume stream).1) ∧
    ((adkConsume stream).2 = .ok () ∨
      ∃ c, (adkConsume stream).2 = .error (.raw c)) := by
  induction stream with
  | nil => exact ⟨by simp [adkConsume], Or.inl rfl⟩
  | cons s rest ih =>
      match s with
      | .raiseExc c => exact ⟨by simp [adkConsume], Or.inr ⟨c, rfl⟩⟩
      | .ev e =>
          by_cases hf : e.isFinal = true
          · exact ⟨by intro f; simp [adkConsume, hf], by simp [adkConsume, hf]⟩
          · by_cases hfc : e.hasFunctionCalls = true
            · constructor
              · intro f
                simp only [adkConsume, if_neg hf, hfc]
                simpa using ih.1 f
              · simp only [adkConsume, if_neg hf, hfc]
                simpa using ih.2
            · constructor
              · intro f
                simp only [adkConsume, if_neg hf]
                simp only [Bool.not_eq_true] at hfc
                simp [hfc]
                exact ih.1 f
              · simp only [adkConsume, if_neg hf]
                simp only [Bool.not_eq_true] at hfc
                simpa [hfc] using ih.2

/-- C6 counterexample: in the ADK executor an exception raised during
event consumption is not converted: `_process_request` emits no `failed`
status and re-raises the raw exception instead of
`ServerError(InternalError)` — refuting the claim's "any executor". -/
theorem adk_exception_unconverted_cex :
    adk_process_request id [] "s1" [ADKStep.raiseExc 7] =
      ([], [], .error (.raw 7)) ∧
    (Except.error (ExecError.raw 7) : Except ExecError Unit) ≠
      .error ExecError.serverInternal :=
  ⟨rfl, fun h => by cases h⟩

/-- C6 (amended): the LangChain executor converts an unhandled exception
during event consumption into a terminal `failed` status emitted as the
last event, then re-raises `ServerError` wrapping `InternalError`; the
ADK executor performs no such conversion — it never emits a `failed`
status and any exception propagates unwrapped. -/
theorem executor_failure_conversion
    (parts : List String) (pre rest : List LCStep) (stream : List ADKStep)
    (hq : lcQuery parts ≠ "") (hpre : ∀ s ∈ pre, s ≠ LCStep.raiseExc) :
    (∃ es, lc_process_request parts (pre ++ LCStep.raiseExc :: rest) =
      (es ++ [Emit.status TState.failed true],
        .error ExecError.serverInternal)) ∧
    (∀ f, Emit.status TState.failed f ∉ (adkConsume stream).1) ∧
    ((adkConsume stream).2 = .ok () ∨
      ∃ c, (adkConsume stream).2 = .error (.raw c)) := by
  refine ⟨?_, (adkConsume_no_failed stream).1, (adkConsume_no_failed stream).2⟩
  unfold lc_process_request
  rw [if_neg hq]
  exact lcConsume_raise pre rest hpre

/-- Witness for C6's amended theorem at a concrete input. -/
theorem executor_failure_conversion_witness :
    lc_process_request ["hi"] [LCStep.raiseExc] =
      ([Emit.status TState.failed true], .error ExecError.serverInternal) ∧
    Emit.status TState.failed true ∉ (adkConsume ([] : List ADKStep)).1 :=
  ⟨by rfl,
   (executor_failure_conversion ["hi"] [] [] [] (by decide) (by simp)).2.1
     true⟩

/-- C7: the session id resolved by `_upsert_session` and added to the
active-session set at the start of the ADK executor's `_process_request`
is absent from the set when it finishes, on every exit path — normal
completion, break on a final response, and any raised exception (every
event stream, including raising ones, is quantified over). -/
theorem adk_session_removed_on_every_exit
    (upsert : String → String) (active_sessions : List String)
    (session_id : String) (stream : List ADKStep) :
    upsert session_id ∉
      (adk_process_request upsert active_sessions session_id stream).1 := by
  unfold adk_process_request
  simp [setDiscard, List.mem_filter]

/-- The registered names the loop would accumulate when only fetch
outcomes decide registration: successful fetches are registered in order,
failed ones skipped. -/
def fetchedNames : List RemoteEntry → List String → List String
  | [], acc => acc
  | e :: rest, acc =>
      match e.fetch with
      | some name => fetchedNames rest (registerName acc name)
      | none => fetchedNames rest acc

/-- When every entry's auth config parses, the registry loop never fails
and registers exactly the successful fetches. -/
theorem registryInitLoop_ok (entries : List RemoteEntry) :
    ∀ acc, (∀ e ∈ entries, e.authOk = true) →
      registryInitLoop entries acc = .ok (fetchedNames entries acc) := by
  induction entries with
  | nil => intro acc _; rfl
  | cons e rest ih =>
      intro acc hauth
      have he : e.authOk = true := hauth e (by simp)
      simp only [registryInitLoop, he, Bool.not_true, Bool.false_eq_true,
        if_false]
      cases hf : e.fetch with
      | some name =>
          simp only [fetchedNames, hf]
          exact ih _ (fun x hx => hauth x (List.mem_cons_of_mem _ hx))
      | none =>
          simp only [fetchedNames, hf]
          exact ih _ (fun x hx => hauth x (List.mem_cons_of_mem _ hx))

/-- C8 counterexample: registry initialization is not exception-free for
every config list — a single entry whose auth config does not parse
(`AuthConfig(**config.get("auth"))` sits before the `try` block) aborts
initialization with an escaping exception. -/
theorem registryInit_malformed_auth_cex :
    registryInit [⟨true, false, some "a"⟩] = .error .configAbort := rfl

/-- C8 (amended): provided every entry's auth config parses and the
first config dict is non-empty, registry initialization never raises:
each entry whose card fetch or connection build raises is logged and
omitted, and every entry whose fetch succeeds is still registered; a
malformed auth config, by contrast, escapes and aborts construction. -/
theorem registryInit_partial_failure_tolerance
    (entries : List RemoteEntry)
    (hauth : ∀ e ∈ entries, e.authOk = true)
    (hfirst : (entries.head?.map RemoteEntry.nonEmptyConfig).getD true
      = true) :
    registryInit entries = .ok (fetchedNames entries []) := by
  match entries with
  | [] => rfl
  | e0 :: rest =>
      have hne : e0.nonEmptyConfig = true := by simpa using hfirst
      rw [show registryInit (e0 :: rest) =
          (if (!e0.nonEmptyConfig) = true then Except.ok [] else
            registryInitLoop (e0 :: rest) []) from rfl]
      rw [hne]
      simp only [Bool.not_true, Bool.false_eq_true, if_false]
      exact registryInitLoop_ok (e0 :: rest) [] hauth

/-- Witness for C8's amended theorem at a concrete input: the first
remote's fetch fails, the second succeeds and is still registered. -/
theorem registryInit_partial_failure_tolerance_witness :
    registryInit [⟨true, true, none⟩, ⟨true, true, some "good"⟩] =
      .ok ["good"] :=
  (registryInit_partial_failure_tolerance
      [⟨true, true, none⟩, ⟨true, true, some "good"⟩]
      (by decide) (by rfl)).trans (by rfl)

/-- Every normalized event carries the resolved request id as its outer
correlation id. -/
theorem normalizeItem_id (rid : String) (it : NormItem) :
    (normalizeItem rid it).id = rid := by
  cases it with
  | rootError err => rfl
  | rootResult o d => rfl
  | obj a hp o ev t d =>
      simp only [normalizeItem]
      split
      · rfl
      · split
        · rfl
        · rfl

/-- The outer id is constant across all events of one call. -/
theorem normalizeAll_ids (rid : String) (items : List NormItem) :
    ∀ ev ∈ normalizeAll rid items, ev.id = rid := by
  induction items with
  | nil => intro ev h; cases h
  | cons it rest ih =>
      intro ev h
      match it with
      | .rootError err =>
          simp only [normalizeAll] at h
          rw [List.mem_singleton] at h
          subst h
          rfl
      | .rootResult o d =>
          rcases List.mem_cons.mp h with h1 | h1
          · subst h1; exact normalizeItem_id rid _
          · exact ih ev h1
      | .obj a hp o evf t d =>
          rcases List.mem_cons.mp h with h1 | h1
          · subst h1; exact normalizeItem_id rid _
          · exact ih ev h1

/-- C9 counterexample: an object carrying non-empty artifacts AND its
own id, normalized under explicit request id `"r1"`, emits a data
payload whose `id` is the object's own id `"t7"`, not `"r1"` — refuting
"explicit request id over the object's own id" for the data id. -/
theorem send_message_artifact_id_cex :
    send_message_events (some "r1") none "gen"
      [NormItem.obj ["a1"] false (some "t7") none none [("k", "v")]] =
      [⟨"message", [("k", "v"), ("id", "t7")], "r1"⟩] ∧
    ([("k", "v"), ("id", "t7")].lookup "id" ≠ some "r1") :=
  ⟨rfl, by decide⟩

/-- C9 (amended): the outer event id is the explicit request id when one
is given (falling back to the message id, then a generated default) and
is held constant across all events of the call; the data payload's `id`
is the object's own id when the object has one, else the outer id — so
an artifacts-carrying object without its own id yields
`{"event": "message", "data": {..., "id": "r1"}, "id": "r1"}`. -/
theorem send_message_id_resolution
    (r g : String) (mi : Option String) (hr : r ≠ "")
    (artifacts : List String) (hasParts : Bool) (v : String)
    (eventField typeField : Option String)
    (dump : List (String × String)) (items : List NormItem)
    (hA : artifacts ≠ []) :
    resolve_rid (some r) mi g = r ∧
    normalizeItem r
        (NormItem.obj artifacts hasParts none eventField typeField dump) =
      ⟨"message", dictInsert dump "id" r, r⟩ ∧
    normalizeItem r
        (NormItem.obj artifacts hasParts (some v) eventField typeField dump) =
      ⟨"message", dictInsert dump "id" v, r⟩ ∧
    (∀ ev ∈ normalizeAll r items, ev.id = r) := by
  refine ⟨?_, ?_, ?_, normalizeAll_ids r items⟩
  · rw [show resolve_rid (some r) mi g =
        (if r = "" then pyOrStr mi g else r) from rfl]
    rw [if_neg hr]
  · simp only [normalizeItem]
    rw [if_pos hA]
    rfl
  · simp only [normalizeItem]
    rw [if_pos hA]
    rfl

/-- Witness for C9's amended theorem at a concrete input: an
artifacts-carrying object without its own id emits data id `"r1"`. -/
theorem send_message_id_resolution_witness :
    ("r1" ≠ "") ∧ (["a1"] ≠ ([] : List String)) ∧
    normalizeItem "r1"
        (NormItem.obj ["a1"] false none none none [("k", "v")]) =
      ⟨"message", dictInsert [("k", "v")] "id" "r1", "r1"⟩ :=
  ⟨by decide, by decide,
   (send_message_id_resolution "r1" "gen" none (by decide) ["a1"] false "t7"
     none none [("k", "v")] [] (by decide)).2.1⟩

/-- The header-filtering loop of `get_propagated_headers` accumulates
exactly the matching entries, provided the inbound header keys are
distinct (as in a Python dict). -/
theorem propagatedLoop_filter (hs : List (String × PyVal)) :
    ∀ acc, (hs.map Prod.fst).Nodup →
      (∀ k ∈ acc.map Prod.fst, k ∉ hs.map Prod.fst) →
      hs.foldl (fun acc kv =>
          if kv.2.isStrOrBytes && strStartsWith kv.1 "x-mapfre-" then
            dictInsert acc kv.1 kv.2
          else acc) acc =
        acc ++ hs.filter
          (fun kv => kv.2.isStrOrBytes && strStartsWith kv.1 "x-mapfre-") := by
  induction hs with
  | nil => intro acc _ _; simp
  | cons kv rest ih =>
      intro acc hnd hdisj
      rw [List.map_cons, List.nodup_cons] at hnd
      rw [List.foldl_cons]
      by_cases hp : (kv.2.isStrOrBytes && strStartsWith kv.1 "x-mapfre-")
        = true
      · rw [if_pos hp]
        have hkv : kv.1 ∉ acc.map Prod.fst := fun hm =>
          hdisj kv.1 hm (by simp)
        have hstep : ∀ k ∈ (dictInsert acc kv.1 kv.2).map Prod.fst,
            k ∉ rest.map Prod.fst := by
          intro k hkmem
          rw [dictInsert_append acc kv.1 kv.2 hkv, List.map_append]
            at hkmem
          rcases List.mem_append.mp hkmem with h1 | h1
          · exact fun hr => hdisj k h1 (List.mem_cons_of_mem _ hr)
          · simp at h1
            subst h1
            exact hnd.1
        rw [ih (dictInsert acc kv.1 kv.2) hnd.2 hstep]
        rw [dictInsert_append acc kv.1 kv.2 hkv]
        simp only [List.filter_cons]
        rw [if_pos hp, List.append_assoc, List.singleton_append]
      · rw [if_neg hp]
        rw [ih acc hnd.2
          (fun k hk hr => hdisj k hk (List.mem_cons_of_mem _ hr))]
        simp only [List.filter_cons]
        rw [if_neg hp]

/-- C10: `get_propagated_headers` returns a flat dictionary — no
enclosing `propagation_headers` wrapper key — containing exactly the
inbound headers with string/bytes values whose name starts with
`x-mapfre-`, and `generate_payload` passes exactly this flat map as the
`propagation_headers` value of the executor payload. -/
theorem get_propagated_headers_flat
    (req : RequestContextM)
    (hnd : (req.headers.map Prod.fst).Nodup)
    (hm : req.messagePresent = true) :
    get_propagated_headers req.headers =
      req.headers.filter
        (fun kv => kv.2.isStrOrBytes && strStartsWith kv.1 "x-mapfre-") ∧
    "propagation_headers" ∉ (get_propagated_headers req.headers).map
      Prod.fst ∧
    generate_payload req = .ok
      ⟨(req.headers.lookup "x-mapfre-user-id").getD (.str DEFAULT_USER_ID),
       (req.headers.lookup "x-mapfre-session-id").getD (.str req.context_id),
       get_propagated_headers req.headers⟩ := by
  have h1 : get_propagated_headers req.headers =
      req.headers.foldl (fun acc kv =>
        if kv.2.isStrOrBytes && strStartsWith kv.1 "x-mapfre-" then
          dictInsert acc kv.1 kv.2
        else acc) [] := rfl
  have hfil : get_propagated_headers req.headers =
      req.headers.filter
        (fun kv => kv.2.isStrOrBytes && strStartsWith kv.1 "x-mapfre-") := by
    rw [h1, propagatedLoop_filter req.headers [] hnd (by simp),
      List.nil_append]
  refine ⟨hfil, ?_, ?_⟩
  · intro hmem
    rw [hfil, List.mem_map] at hmem
    obtain ⟨kv, hkv, hk⟩ := hmem
    rw [List.mem_filter, Bool.and_eq_true] at hkv
    have h2 := hkv.2.2
    rw [hk] at h2
    exact absurd h2 (by decide)
  · unfold generate_payload
    rw [hm]
    rfl

/-- Witness for C10 at a concrete input: only the `x-mapfre-` header is
kept, flat, with no wrapper key. -/
theorem get_propagated_headers_flat_witness :
    (([("x-mapfre-a", PyVal.str "1"),
       ("other", PyVal.str "2")].map Prod.fst).Nodup) ∧
    get_propagated_headers
        [("x-mapfre-a", PyVal.str "1"), ("other", PyVal.str "2")] =
      [("x-mapfre-a", PyVal.str "1")] :=
  ⟨by decide,
   ((get_propagated_headers_flat
       ⟨[("x-mapfre-a", PyVal.str "1"), ("other", PyVal.str "2")],
        "cid", true⟩ (by decide) rfl).1).trans (by decide)⟩

end AgentKit
